/-
Verification of the log aggregation engine
(src/services/log-aggregator/main.py) against its specification.

The engine is embedded shallowly: the global mutable state (log_buffer,
last_flush) becomes an explicit EngineState threaded through the
operations; Python dicts become insertion-ordered association lists;
datetime.now() becomes an explicit `now : Nat` parameter; the PostgreSQL
sink (save_to_postgres) becomes an oracle `Sink := AggregatedLog → Bool`
standing for its success/failure result, since its body is pure database
I/O whose return value the engine inspects nowhere.
-/
import Mathlib

namespace LogAggregator

/-- One buffered log event, the dict built at the top of ingest_log
(`log_data`).  The open `metadata` mapping is never read by the engine
logic and is omitted.  The `source` field is the per-event source tag
stored in the dict (always set to the ingested entry source). -/
structure LogEvent where
  message : String
  source : String
  level : String
  timestamp : Nat
  deriving DecidableEq

/-- The validated ingest request body (pydantic model LogEntry):
`message` and `source` are required, `level` defaults to "info",
`timestamp` is optional. -/
structure LogEntry where
  message : String
  source : String
  level : String
  timestamp : Option Nat
  deriving DecidableEq

/-- Raw JSON-ish request body before pydantic validation: every field may
be absent. -/
structure RawLogInput where
  message : Option String
  source : Option String
  level : Option String
  timestamp : Option Nat
  deriving DecidableEq

/-- Pydantic validation of a request body against the LogEntry model:
`message : str` and `source : str` are required fields, so an absent one
is a validation error; `level : Optional[str] = "info"` defaults to
"info" when absent; no further constraint is checked (any string is
accepted for every field). -/
def parseLogEntry (raw : RawLogInput) : Except String LogEntry :=
  match raw.message, raw.source with
  | none, _ => .error "field required: message"
  | some _, none => .error "field required: source"
  | some m, some s =>
      .ok { message := m, source := s, level := raw.level.getD "info",
            timestamp := raw.timestamp }

/-- The in-memory buffer `log_buffer = defaultdict(list)`: an
insertion-ordered map from source key to its list of buffered events. -/
abbrev Buffer := List (String × List LogEvent)

/-- Dict key lookup (no defaultdict insertion; used where the code only
iterates or tests membership). -/
def bufLookup (buf : Buffer) (k : String) : Option (List LogEvent) :=
  match buf with
  | [] => none
  | (s, l) :: rest => if s = k then some l else bufLookup rest k

/-- `log_buffer[entry.source].append(log_data)`: append the event to the
existing list in place, or create the key at the end of the dict with a
one-element list. -/
def bufAppend (buf : Buffer) (k : String) (e : LogEvent) : Buffer :=
  match buf with
  | [] => [(k, [e])]
  | (s, l) :: rest =>
      if s = k then (s, l ++ [e]) :: rest else (s, l) :: bufAppend rest k e

/-- `log_buffer[k]` on a `defaultdict(list)`: returns the stored list if
the key is present, otherwise INSERTS the key with an empty list and
returns that empty list.  This insertion side effect is what the plain
subscript in the ingest return statement performs. -/
def ddGetItem (buf : Buffer) (k : String) : Buffer × List LogEvent :=
  match bufLookup buf k with
  | some l => (buf, l)
  | none => (buf ++ [(k, [])], [])

/-- `sum(len(logs) for logs in log_buffer.values())`. -/
def totalBuffered (buf : Buffer) : Nat :=
  (buf.map (fun p => p.2.length)).sum

/-- The process-wide mutable state of the engine: the buffer map and the
`last_flush` timestamp. -/
structure EngineState where
  log_buffer : Buffer
  last_flush : Nat
  deriving DecidableEq

/-- The environment configuration: AGGREGATION_WINDOW and BATCH_SIZE. -/
structure Config where
  aggregation_window : Nat
  batch_size : Nat
  deriving DecidableEq

/-- The metadata dict attached to an aggregated log record in
flush_aggregated_logs (its seven fixed keys). -/
structure RecordMeta where
  source : String
  aggregation_window : Nat
  total_logs : Nat
  error_count : Nat
  info_count : Nat
  timestamp : Nat
  log_sources : List String
  deriving DecidableEq

/-- The AggregatedLog pydantic model: summary text plus metadata. -/
structure AggregatedLog where
  text : String
  metadata : RecordMeta
  deriving DecidableEq

/-- The persistence sink: save_to_postgres returns True on a successful
insert and False when the pool is missing or the insert raises.  Its body
is database I/O, so it is abstracted as an oracle giving the result of
each store. -/
abbrev Sink := AggregatedLog → Bool

/-- save_to_postgres: hands the record to the database and reports
success or failure; the engine code that calls it discards this result. -/
def save_to_postgres (sink : Sink) (a : AggregatedLog) : Bool := sink a

/-- Python str.lower (ASCII case folding), written structurally over the
character list so that it evaluates inside the kernel. -/
def strToLower (s : String) : String := ⟨s.data.map Char.toLower⟩

/-- `log.get("level", "info").lower() in ["error", "warning"]`: the
classification used to fill error_logs in the summarization loop (the
"level" key is always present in a buffered event dict). -/
def isErrorLevel (e : LogEvent) : Bool :=
  strToLower e.level = "error" || strToLower e.level = "warning"

/-- `message_counts[log["message"]] += 1` on a `defaultdict(int)`:
increment the count in place if the message key exists, else append it
with count 1 (dict iteration order is first-occurrence order). -/
def bumpCount (counts : List (String × Nat)) (m : String) :
    List (String × Nat) :=
  match counts with
  | [] => [(m, 1)]
  | (k, c) :: rest =>
      if k = m then (k, c + 1) :: rest else (k, c) :: bumpCount rest m

/-- Lookup in the message-count dict. -/
def countLookup (counts : List (String × Nat)) (m : String) : Option Nat :=
  match counts with
  | [] => none
  | (k, c) :: rest => if k = m then some c else countLookup rest m

/-- The per-source aggregation loop body accumulators: message_counts,
error_logs and info_logs, filled by one pass over the events. -/
def partitionLogs (logs : List LogEvent) :
    List (String × Nat) × List LogEvent × List LogEvent :=
  logs.foldl
    (fun acc e =>
      let counts := bumpCount acc.1 e.message
      if isErrorLevel e then (counts, acc.2.1 ++ [e], acc.2.2)
      else (counts, acc.2.1, acc.2.2 ++ [e]))
    ([], [], [])

/-- The message-count pass alone (the same fold, counts component). -/
def messageCounts (logs : List LogEvent) : List (String × Nat) :=
  logs.foldl (fun acc e => bumpCount acc e.message) []

/-- Ordering used by `sorted(message_counts.items(), key=lambda x: x[1],
reverse=True)`: p before q when the count of q is at most the count of
p. -/
def countGe (p q : String × Nat) : Prop := q.2 ≤ p.2

instance : DecidableRel countGe := fun p q => Nat.decLe q.2 p.2

instance : IsTotal (String × Nat) countGe :=
  ⟨fun p q => (Nat.le_total q.2 p.2).elim Or.inl Or.inr⟩

instance : IsTrans (String × Nat) countGe :=
  ⟨fun _ _ _ h h2 => Nat.le_trans h2 h⟩

/-- Python sorted with `key=lambda x: x[1], reverse=True` is the stable
descending sort by count; insertion sort with countGe computes exactly
that order (largest counts first, ties kept in input order). -/
def sortDesc (l : List (String × Nat)) : List (String × Nat) :=
  List.insertionSort countGe l

/-- `f"\x7bmsg\x7d (\x7bcount\x7dx)"` for one top message. -/
def formatTop (p : String × Nat) : String :=
  p.1 ++ " (" ++ toString p.2 ++ "x)"

/-- The agg_text built for one source: the error-priority branch when
error_logs is non-empty, else the activity summary over the top 3
most frequent messages. -/
def aggText (source : String) (counts : List (String × Nat))
    (errs infos : List LogEvent) : String :=
  if errs.isEmpty then
    "[" ++ source ++ "] Activity summary: " ++
      String.intercalate "; " (((sortDesc counts).take 3).map formatTop)
  else
    "[" ++ source ++ "] " ++ toString errs.length ++ " errors, " ++
      toString infos.length ++ " info messages. " ++ "Errors: " ++
      String.intercalate "; "
        ((errs.take 3).map (fun e => e.message.take 100))

/-- `list(set(log.get("source", source) for log in logs))`: the distinct
per-event source tags (modelled in first-occurrence order; the engine
only ever treats this as a set). -/
def dedupSources (acc : List String) : List String → List String
  | [] => acc
  | s :: rest =>
      if s ∈ acc then dedupSources acc rest
      else dedupSources (acc ++ [s]) rest

/-- The AggregatedLog built for one source inside
flush_aggregated_logs. -/
def makeRecord (cfg : Config) (now : Nat) (source : String)
    (logs : List LogEvent) : AggregatedLog :=
  let acc := partitionLogs logs
  { text := aggText source acc.1 acc.2.1 acc.2.2
    metadata :=
      { source := source
        aggregation_window := cfg.aggregation_window
        total_logs := logs.length
        error_count := acc.2.1.length
        info_count := acc.2.2.length
        timestamp := now
        log_sources := dedupSources [] (logs.map LogEvent.source) } }

/-- The `for source, logs in log_buffer.items()` loop: skips empty
lists, builds one record per remaining source, hands each to
save_to_postgres (whose Bool result is collected here only to show it is
discarded), and performs no buffer mutation. -/
def flushLoop (cfg : Config) (sink : Sink) (now : Nat) :
    List (String × List LogEvent) → List AggregatedLog × List Bool
  | [] => ([], [])
  | (s, logs) :: rest =>
      if logs.isEmpty then flushLoop cfg sink now rest
      else
        let r := makeRecord cfg now s logs
        let saved := save_to_postgres sink r
        let tail := flushLoop cfg sink now rest
        (r :: tail.1, saved :: tail.2)

/-- flush_aggregated_logs: returns unchanged on an empty buffer;
otherwise runs the per-source loop over the buffer (producing the
records handed to the sink), then clears the whole buffer in one step
and updates last_flush.  The records are returned so the sink hand-off
is observable. -/
def flush_aggregated_logs (cfg : Config) (sink : Sink) (now : Nat)
    (st : EngineState) : EngineState × List AggregatedLog :=
  if st.log_buffer.isEmpty then (st, [])
  else
    let recs := (flushLoop cfg sink now st.log_buffer).1
    ({ log_buffer := [], last_flush := now }, recs)

/-- The buffer contents observable after each source iteration of the
flush loop completes (one entry per processed source).  The loop body
contains no mutation of log_buffer, so every observation equals the
buffer at cycle start; the single clearing step happens after the
loop. -/
def loopBufferTrace (buf : Buffer) : List (String × List LogEvent) → List Buffer
  | [] => []
  | (_, logs) :: rest =>
      if logs.isEmpty then loopBufferTrace buf rest
      else buf :: loopBufferTrace buf rest

/-- The per-source buffer observations of one flush cycle. -/
def flushBufferTrace (st : EngineState) : List Buffer :=
  if st.log_buffer.isEmpty then []
  else loopBufferTrace st.log_buffer st.log_buffer

/-- The JSON body returned by the ingest endpoint. -/
structure IngestResponse where
  status : String
  buffer_size : Nat
  deriving DecidableEq

/-- The `log_data` dict built at the top of ingest_log: the buffered
event, with the timestamp defaulting to ingest time. -/
def ingestEvent (now : Nat) (entry : LogEntry) : LogEvent :=
  { message := entry.message, source := entry.source,
    level := entry.level, timestamp := entry.timestamp.getD now }

/-- The early-flush condition evaluated after the append in ingest_log:
escalating severity or total buffered count at the batch size. -/
def earlyFlushCond (cfg : Config) (entry : LogEntry) (buf : Buffer) : Bool :=
  strToLower entry.level = "error" || strToLower entry.level = "critical" ||
    decide (cfg.batch_size ≤ totalBuffered buf)

/-- ingest_log: build the event dict (timestamp defaulting to now),
append it to the buffer for its source, flush the whole engine when the
early-flush condition holds, then answer with the buffer depth read by
`len(log_buffer[entry.source])` — a defaultdict subscript, so this read
re-creates the key with an empty list when the flush just removed it.
Returns the new state, the records the triggered flush handed to the
sink (empty when no flush ran), and the response. -/
def ingest_log (cfg : Config) (sink : Sink) (now : Nat) (st : EngineState)
    (entry : LogEntry) : EngineState × List AggregatedLog × IngestResponse :=
  let buf1 := bufAppend st.log_buffer entry.source (ingestEvent now entry)
  let st1 : EngineState := { st with log_buffer := buf1 }
  let flushed :=
    if earlyFlushCond cfg entry buf1 then
      flush_aggregated_logs cfg sink now st1
    else (st1, [])
  let depthRead := ddGetItem flushed.1.log_buffer entry.source
  ({ flushed.1 with log_buffer := depthRead.1 }, flushed.2,
    { status := "accepted", buffer_size := depthRead.2.length })

/-- The JSON body returned by the stats endpoint. -/
structure StatsResponse where
  total_buffered : Nat
  sources : List (String × Nat)
  last_flush : Nat
  aggregation_window : Nat
  batch_size : Nat
  deriving DecidableEq

/-- get_stats: reads the buffer and configuration, mutating nothing (the
state is returned alongside to make the frame condition explicit). -/
def get_stats (cfg : Config) (st : EngineState) :
    EngineState × StatsResponse :=
  (st,
    { total_buffered := totalBuffered st.log_buffer
      sources := st.log_buffer.map (fun p => (p.1, p.2.length))
      last_flush := st.last_flush
      aggregation_window := cfg.aggregation_window
      batch_size := cfg.batch_size })

/-- The JSON body returned by the manual flush endpoint: a constant
status string and the current time, nothing else. -/
structure FlushResponse where
  status : String
  timestamp : Nat
  deriving DecidableEq

/-- manual_flush: runs the shared flush cycle and answers with only a
status string and a timestamp. -/
def manual_flush (cfg : Config) (sink : Sink) (now : Nat)
    (st : EngineState) : EngineState × FlushResponse :=
  ((flush_aggregated_logs cfg sink now st).1,
    { status := "flushed", timestamp := now })

/-! Concrete fixtures used by witnesses and counterexamples. -/

/-- Default configuration: AGGREGATION_WINDOW 30, BATCH_SIZE 10. -/
def cfg0 : Config := { aggregation_window := 30, batch_size := 10 }

/-- A sink whose stores all succeed. -/
def sinkOk : Sink := fun _ => true

/-- A sink whose stores all fail. -/
def sinkBad : Sink := fun _ => false

/-- A critical-severity event. -/
def evCrit : LogEvent :=
  { message := "boom", source := "s", level := "critical", timestamp := 0 }

/-- An event with the out-of-set level string "warning". -/
def evWarning : LogEvent :=
  { message := "boom", source := "s", level := "warning", timestamp := 0 }

/-- Two plain info events. -/
def ev1 : LogEvent :=
  { message := "a", source := "s", level := "info", timestamp := 0 }

def ev2 : LogEvent :=
  { message := "b", source := "s", level := "info", timestamp := 0 }

/-- A state holding the single critical event. -/
def stC2 : EngineState := { log_buffer := [("s", [evCrit])], last_flush := 0 }

/-- A state holding the single "warning" event. -/
def stC9 : EngineState :=
  { log_buffer := [("s", [evWarning])], last_flush := 0 }

/-- A state with five info events over two distinct messages. -/
def stAct : EngineState :=
  { log_buffer := [("s", [ev1, ev2, ev2, ev1, ev1])], last_flush := 0 }

/-- A state with two sources, one event each. -/
def stTr : EngineState :=
  { log_buffer := [("a", [ev1]), ("b", [ev2])], last_flush := 0 }

/-- An error-level ingest request. -/
def entErr : LogEntry :=
  { message := "DB timeout", source := "db", level := "error",
    timestamp := none }

/-- An info-level ingest request. -/
def entInfo : LogEntry :=
  { message := "query ok", source := "db", level := "info",
    timestamp := none }

/-- A raw request body with empty message, empty source and an invalid
level string. -/
def rawBad : RawLogInput :=
  { message := some "", source := some "", level := some "bogus",
    timestamp := none }

/-- Does pydantic validation reject the request body? -/
def isRejected : Except String LogEntry → Bool
  | .error _ => true
  | .ok _ => false

/-! Helper lemmas about the buffer and the summarization fold. -/

theorem length_filter_add_length_filter_not {α : Type _} (p : α → Bool) :
    ∀ l : List α,
      (l.filter p).length + (l.filter (fun a => !p a)).length = l.length
  | [] => rfl
  | a :: l => by
    have ih := length_filter_add_length_filter_not p l
    by_cases h : p a = true <;> simp [List.filter_cons, h] <;> omega

theorem partition_fold (logs : List LogEvent) :
    ∀ acc : List (String × Nat) × List LogEvent × List LogEvent,
      logs.foldl
        (fun acc e =>
          let counts := bumpCount acc.1 e.message
          if isErrorLevel e then (counts, acc.2.1 ++ [e], acc.2.2)
          else (counts, acc.2.1, acc.2.2 ++ [e]))
        acc =
      (logs.foldl (fun c e => bumpCount c e.message) acc.1,
       acc.2.1 ++ logs.filter isErrorLevel,
       acc.2.2 ++ logs.filter (fun e => !isErrorLevel e)) := by
  induction logs with
  | nil => intro acc; simp
  | cons e rest ih =>
    intro acc
    by_cases he : isErrorLevel e = true <;>
      simp [List.foldl_cons, List.filter_cons, he, ih]

theorem partitionLogs_eq (logs : List LogEvent) :
    partitionLogs logs =
      (messageCounts logs, logs.filter isErrorLevel,
       logs.filter (fun e => !isErrorLevel e)) := by
  unfold partitionLogs messageCounts
  rw [partition_fold]
  simp

theorem flushLoop_mem {cfg : Config} {sink : Sink} {now : Nat}
    {r : AggregatedLog} :
    ∀ {entries : List (String × List LogEvent)},
      r ∈ (flushLoop cfg sink now entries).1 →
      ∃ s logs, (s, logs) ∈ entries ∧ logs ≠ [] ∧
        r = makeRecord cfg now s logs := by
  intro entries
  induction entries with
  | nil => intro h; simp [flushLoop] at h
  | cons p rest ih =>
    intro h
    by_cases hp : p.2.isEmpty
    · rw [show p = (p.1, p.2) from rfl] at h
      simp only [flushLoop, hp, if_pos] at h
      obtain ⟨s, logs, hm, hne, hr⟩ := ih h
      exact ⟨s, logs, List.mem_cons_of_mem _ hm, hne, hr⟩
    · rw [show p = (p.1, p.2) from rfl] at h
      simp only [flushLoop, hp, if_neg, Bool.false_eq_true,
        not_false_iff] at h
      rcases List.mem_cons.mp h with h1 | h2
      · exact ⟨p.1, p.2, List.mem_cons_self _ _,
          fun hnil => hp (by simp [hnil]), h1⟩
      · obtain ⟨s, logs, hm, hne, hr⟩ := ih h2
        exact ⟨s, logs, List.mem_cons_of_mem _ hm, hne, hr⟩

theorem flushLoop_mem_of {cfg : Config} {sink : Sink} {now : Nat}
    {s : String} {logs : List LogEvent} :
    ∀ {entries : List (String × List LogEvent)},
      (s, logs) ∈ entries → logs ≠ [] →
      makeRecord cfg now s logs ∈ (flushLoop cfg sink now entries).1 := by
  intro entries
  induction entries with
  | nil => intro h; simp at h
  | cons p rest ih =>
    intro h hne
    rcases List.mem_cons.mp h with h1 | h2
    · have hp : p.2.isEmpty = false := by
        rw [← h1]; simpa [List.isEmpty_iff] using hne
      rw [show p = (p.1, p.2) from rfl, flushLoop]
      simp only [hp, Bool.false_eq_true, if_neg, not_false_iff]
      rw [← h1]
      exact List.mem_cons_self _ _
    · rw [show p = (p.1, p.2) from rfl, flushLoop]
      by_cases hp : p.2.isEmpty
      · simp only [hp, if_pos]
        exact ih h2 hne
      · simp only [hp, Bool.false_eq_true, if_neg, not_false_iff]
        exact List.mem_cons_of_mem _ (ih h2 hne)

theorem bufLookup_of_mem {buf : Buffer}
    (hkeys : buf.Pairwise (fun p q => p.1 ≠ q.1)) {s : String}
    {logs : List LogEvent} (hm : (s, logs) ∈ buf) :
    bufLookup buf s = some logs := by
  induction buf with
  | nil => simp at hm
  | cons p rest ih =>
    rcases List.mem_cons.mp hm with h1 | h2
    · rw [show p = (p.1, p.2) from rfl, bufLookup]
      have : p.1 = s := by rw [← h1]
      simp [this, ← h1]
    · have hne : p.1 ≠ s := by
        have := (List.pairwise_cons.mp hkeys).1 _ h2
        simpa using this
      rw [show p = (p.1, p.2) from rfl, bufLookup]
      simp only [if_neg hne]
      exact ih (List.pairwise_cons.mp hkeys).2 h2

theorem bufAppend_ne_nil (buf : Buffer) (k : String) (e : LogEvent) :
    bufAppend buf k e ≠ [] := by
  cases buf with
  | nil => simp [bufAppend]
  | cons p rest =>
    rw [show p = (p.1, p.2) from rfl, bufAppend]
    split <;> simp

theorem bufLookup_bufAppend_self (buf : Buffer) (k : String)
    (e : LogEvent) :
    bufLookup (bufAppend buf k e) k =
      some ((bufLookup buf k).getD [] ++ [e]) := by
  induction buf with
  | nil => simp [bufAppend, bufLookup]
  | cons p rest ih =>
    rw [show p = (p.1, p.2) from rfl]
    by_cases h : p.1 = k
    · simp [bufAppend, bufLookup, h]
    · simp [bufAppend, bufLookup, h, ih]

theorem totalBuffered_bufAppend (buf : Buffer) (k : String)
    (e : LogEvent) :
    totalBuffered (bufAppend buf k e) = totalBuffered buf + 1 := by
  induction buf with
  | nil => simp [bufAppend, totalBuffered]
  | cons p rest ih =>
    rw [show p = (p.1, p.2) from rfl]
    by_cases h : p.1 = k
    · simp [bufAppend, totalBuffered, h, Nat.add_assoc, Nat.add_comm,
        Nat.add_left_comm]
    · simp only [bufAppend, if_neg h]
      simp only [totalBuffered, List.map_cons, List.sum_cons] at ih ⊢
      omega

theorem mem_bufAppend_nonempty {buf : Buffer}
    (hwf : ∀ p ∈ buf, p.2 ≠ ([] : List LogEvent)) (k : String)
    (e : LogEvent) :
    ∀ p ∈ bufAppend buf k e, p.2 ≠ ([] : List LogEvent) := by
  induction buf with
  | nil => intro p hp; simp [bufAppend] at hp; simp [hp]
  | cons q rest ih =>
    intro p hp
    rw [show q = (q.1, q.2) from rfl] at hp
    by_cases h : q.1 = k
    · simp only [bufAppend, if_pos h] at hp
      rcases List.mem_cons.mp hp with h1 | h2
      · simp [h1]
      · exact hwf p (List.mem_cons_of_mem _ h2)
    · simp only [bufAppend, if_neg h] at hp
      rcases List.mem_cons.mp hp with h1 | h2
      · exact h1 ▸ hwf q (List.mem_cons_self _ _)
      · exact ih (fun q hq => hwf q (List.mem_cons_of_mem _ hq)) p h2

theorem ddGetItem_of_present {buf : Buffer} {k : String}
    {l : List LogEvent} (h : bufLookup buf k = some l) :
    ddGetItem buf k = (buf, l) := by
  unfold ddGetItem
  rw [h]

theorem flush_clears_buffer (cfg : Config) (sink : Sink) (now : Nat)
    (st : EngineState) :
    (flush_aggregated_logs cfg sink now st).1.log_buffer = [] := by
  unfold flush_aggregated_logs
  by_cases h : st.log_buffer.isEmpty
  · simp only [h, if_pos]
    exact List.isEmpty_iff.mp h
  · simp [h]

theorem flush_nonempty (cfg : Config) (sink : Sink) (now : Nat)
    (st : EngineState) (h : st.log_buffer ≠ []) :
    flush_aggregated_logs cfg sink now st =
      ({ log_buffer := [], last_flush := now },
       (flushLoop cfg sink now st.log_buffer).1) := by
  unfold flush_aggregated_logs
  simp [List.isEmpty_iff, h]

theorem loopBufferTrace_mem {buf : Buffer} :
    ∀ {entries : List (String × List LogEvent)} {b : Buffer},
      b ∈ loopBufferTrace buf entries → b = buf := by
  intro entries
  induction entries with
  | nil => intro b h; simp [loopBufferTrace] at h
  | cons p rest ih =>
    intro b h
    rw [show p = (p.1, p.2) from rfl] at h
    by_cases hp : p.2.isEmpty
    · simp only [loopBufferTrace, hp, if_pos] at h
      exact ih h
    · simp only [loopBufferTrace, hp, Bool.false_eq_true, if_neg,
        not_false_iff] at h
      rcases List.mem_cons.mp h with h1 | h2
      · exact h1
      · exact ih h2

theorem strToLower_error : strToLower "error" = "error" := rfl

theorem strToLower_critical : strToLower "critical" = "critical" := rfl

theorem ingest_log_flush_eq (cfg : Config) (sink : Sink) (now : Nat)
    (st : EngineState) (entry : LogEntry)
    (hcond : earlyFlushCond cfg entry
      (bufAppend st.log_buffer entry.source (ingestEvent now entry)) = true) :
    ingest_log cfg sink now st entry =
      ({ log_buffer := [(entry.source, [])], last_flush := now },
       (flushLoop cfg sink now
         (bufAppend st.log_buffer entry.source (ingestEvent now entry))).1,
       { status := "accepted", buffer_size := 0 }) := by
  have hflush := flush_nonempty cfg sink now
    { log_buffer := bufAppend st.log_buffer entry.source (ingestEvent now entry),
      last_flush := st.last_flush }
    (bufAppend_ne_nil st.log_buffer entry.source (ingestEvent now entry))
  simp only [ingest_log, hcond, if_true, hflush]
  rfl

theorem ingest_log_noflush_eq (cfg : Config) (sink : Sink) (now : Nat)
    (st : EngineState) (entry : LogEntry)
    (hcond : earlyFlushCond cfg entry
      (bufAppend st.log_buffer entry.source (ingestEvent now entry)) = false) :
    ingest_log cfg sink now st entry =
      ({ st with log_buffer :=
          bufAppend st.log_buffer entry.source (ingestEvent now entry) },
       [],
       { status := "accepted",
         buffer_size :=
           ((bufLookup st.log_buffer entry.source).getD []).length + 1 }) := by
  have hdd := ddGetItem_of_present
    (bufLookup_bufAppend_self st.log_buffer entry.source (ingestEvent now entry))
  simp only [ingest_log, hcond, Bool.false_eq_true, if_neg, not_false_iff,
    hdd]
  simp

/-- Claim C1: in every AggregatedRecord produced by a flush cycle,
error_count + info_count equals total_count, and total_count is the
number of events buffered for that record source at flush time: each
event lands in exactly one of the two buckets. -/
theorem C1_flush_record_counts (cfg : Config) (sink : Sink) (now : Nat)
    (st : EngineState)
    (hkeys : st.log_buffer.Pairwise (fun p q => p.1 ≠ q.1))
    (r : AggregatedLog)
    (hr : r ∈ (flush_aggregated_logs cfg sink now st).2) :
    r.metadata.error_count + r.metadata.info_count =
        r.metadata.total_logs ∧
    bufLookup st.log_buffer r.metadata.source ≠ none ∧
    r.metadata.total_logs =
      ((bufLookup st.log_buffer r.metadata.source).getD []).length := by
  by_cases hb : st.log_buffer.isEmpty
  · unfold flush_aggregated_logs at hr
    simp [hb] at hr
  · rw [flush_nonempty cfg sink now st
      (fun hnil => hb (by simp [hnil]))] at hr
    obtain ⟨s, logs, hmem, hne, hreq⟩ := flushLoop_mem hr
    subst hreq
    have hlook := bufLookup_of_mem hkeys hmem
    refine ⟨?_, ?_, ?_⟩
    · simp only [makeRecord, partitionLogs_eq]
      exact length_filter_add_length_filter_not isErrorLevel logs
    · simp only [makeRecord]
      rw [hlook]
      simp
    · simp only [makeRecord]
      rw [hlook]
      simp

/-- Witness for C1: the flush of the one-event state stC2 produces a
record satisfying the counting invariant. -/
theorem C1_witness :
    (makeRecord cfg0 1 "s" [evCrit]).metadata.error_count +
        (makeRecord cfg0 1 "s" [evCrit]).metadata.info_count =
      (makeRecord cfg0 1 "s" [evCrit]).metadata.total_logs ∧
    bufLookup stC2.log_buffer
        (makeRecord cfg0 1 "s" [evCrit]).metadata.source ≠ none ∧
    (makeRecord cfg0 1 "s" [evCrit]).metadata.total_logs =
      ((bufLookup stC2.log_buffer
          (makeRecord cfg0 1 "s" [evCrit]).metadata.source).getD
        []).length :=
  C1_flush_record_counts cfg0 sinkOk 1 stC2 (by simp [stC2])
    (makeRecord cfg0 1 "s" [evCrit])
    (by
      rw [show (flush_aggregated_logs cfg0 sinkOk 1 stC2).2 =
            [makeRecord cfg0 1 "s" [evCrit]] from rfl]
      exact List.mem_singleton.mpr rfl)

/-- Claim C3: ingesting an event whose level is error or critical
triggers a whole-engine flush before the call returns: afterwards no
source has pending events (the only remaining key is the empty
depth-read entry for the triggering source) and last_flush is updated to
the flush time. -/
theorem C3_ingest_escalation (cfg : Config) (sink : Sink) (now : Nat)
    (st : EngineState) (entry : LogEntry)
    (h : entry.level = "error" ∨ entry.level = "critical") :
    (ingest_log cfg sink now st entry).1.log_buffer =
        [(entry.source, [])] ∧
    (ingest_log cfg sink now st entry).1.last_flush = now ∧
    totalBuffered (ingest_log cfg sink now st entry).1.log_buffer = 0 := by
  have hcond : earlyFlushCond cfg entry
      (bufAppend st.log_buffer entry.source (ingestEvent now entry)) = true := by
    unfold earlyFlushCond
    rcases h with h | h <;> rw [h]
    · rw [strToLower_error]; simp
    · rw [strToLower_critical]; simp
  rw [ingest_log_flush_eq cfg sink now st entry hcond]
  exact ⟨rfl, rfl, rfl⟩

/-- Witness for C3: ingesting the concrete error-level entry entErr into
an empty engine flushes everything. -/
theorem C3_witness :
    (ingest_log cfg0 sinkOk 5 { log_buffer := [], last_flush := 0 }
        entErr).1.log_buffer = [(entErr.source, [])] ∧
    (ingest_log cfg0 sinkOk 5 { log_buffer := [], last_flush := 0 }
        entErr).1.last_flush = 5 ∧
    totalBuffered (ingest_log cfg0 sinkOk 5
        { log_buffer := [], last_flush := 0 } entErr).1.log_buffer = 0 :=
  C3_ingest_escalation cfg0 sinkOk 5 { log_buffer := [], last_flush := 0 }
    entErr (Or.inl rfl)

/-- Claim C8: get_stats is read-only: it leaves the engine state exactly
unchanged and reports the per-source pending counts, total pending, last
flush time and configured window and batch size; the reported total is
consistent with the reported per-source counts. -/
theorem C8_get_stats_readonly (cfg : Config) (st : EngineState) :
    (get_stats cfg st).1 = st ∧
    (get_stats cfg st).2.total_buffered = totalBuffered st.log_buffer ∧
    (get_stats cfg st).2.sources =
      st.log_buffer.map (fun p => (p.1, p.2.length)) ∧
    (get_stats cfg st).2.last_flush = st.last_flush ∧
    (get_stats cfg st).2.aggregation_window = cfg.aggregation_window ∧
    (get_stats cfg st).2.batch_size = cfg.batch_size ∧
    (get_stats cfg st).2.total_buffered =
      (((get_stats cfg st).2.sources).map Prod.snd).sum := by
  refine ⟨rfl, rfl, rfl, rfl, rfl, rfl, ?_⟩
  show totalBuffered st.log_buffer =
    ((st.log_buffer.map (fun p => (p.1, p.2.length))).map Prod.snd).sum
  rw [List.map_map]
  rfl

/-- Claim C10: with batch_size at least 1, after any single ingest call
returns, the total number of buffered events is strictly below
batch_size (reaching it triggers a flush emptying the buffer within the
call). -/
theorem C10_ingest_backpressure (cfg : Config) (sink : Sink) (now : Nat)
    (st : EngineState) (entry : LogEntry) (h : 1 ≤ cfg.batch_size) :
    totalBuffered (ingest_log cfg sink now st entry).1.log_buffer <
      cfg.batch_size := by
  by_cases hc : earlyFlushCond cfg entry
      (bufAppend st.log_buffer entry.source (ingestEvent now entry)) = true
  · rw [ingest_log_flush_eq cfg sink now st entry hc]
    simpa [totalBuffered] using h
  · have hc' : earlyFlushCond cfg entry
        (bufAppend st.log_buffer entry.source (ingestEvent now entry)) = false := by
      simpa using hc
    rw [ingest_log_noflush_eq cfg sink now st entry hc']
    show totalBuffered
      (bufAppend st.log_buffer entry.source (ingestEvent now entry)) <
        cfg.batch_size
    unfold earlyFlushCond at hc'
    simp only [Bool.or_eq_false_iff, decide_eq_false_iff_not] at hc'
    omega

/-- Witness for C10: one concrete info ingest into an empty engine keeps
the buffer under the batch size. -/
theorem C10_witness :
    totalBuffered (ingest_log cfg0 sinkOk 3
        { log_buffer := [], last_flush := 0 } entInfo).1.log_buffer <
      cfg0.batch_size :=
  C10_ingest_backpressure cfg0 sinkOk 3
    { log_buffer := [], last_flush := 0 } entInfo (by decide)

/-- Counterexample to C2 as stated: a critical-level event is placed in
info_logs, not error_logs — the produced record for a lone critical
event has error_count 0 and info_count 1. -/
theorem C2_counterexample :
    evCrit.level = "critical" ∧
    ((flush_aggregated_logs cfg0 sinkOk 1 stC2).2.map
        (fun r => (r.metadata.error_count, r.metadata.info_count))) =
      [(0, 1)] :=
  ⟨rfl, rfl⟩

/-- Counterexample to C4 as stated: a request with empty message, empty
source and the out-of-set level "bogus" passes validation and is
appended to the buffer. -/
theorem C4_counterexample :
    parseLogEntry rawBad =
      .ok { message := "", source := "", level := "bogus",
            timestamp := none } ∧
    (ingest_log cfg0 sinkOk 0 { log_buffer := [], last_flush := 0 }
        { message := "", source := "", level := "bogus",
          timestamp := none }).1.log_buffer =
      [("", [{ message := "", source := "", level := "bogus",
               timestamp := 0 }])] :=
  ⟨rfl, rfl⟩

/-- Counterexample to C5 as stated: after an ingest call that triggered
a flush, the buffer map holds the triggering source key with an empty
event list (the defaultdict depth read re-created it). -/
theorem C5_counterexample :
    (ingest_log cfg0 sinkOk 5 { log_buffer := [], last_flush := 0 }
        entErr).1.log_buffer = [("db", [])] ∧
    bufLookup (ingest_log cfg0 sinkOk 5
        { log_buffer := [], last_flush := 0 } entErr).1.log_buffer "db" =
      some [] :=
  ⟨rfl, rfl⟩

/-- Counterexample to C6 as stated: the manual flush response is
identical whether every sink store fails or succeeds, so a sink failure
(exhibited in the third conjunct) cannot appear in it; the response
carries only a status string and a timestamp. -/
theorem C6_counterexample :
    manual_flush cfg0 sinkBad 7 stC2 = manual_flush cfg0 sinkOk 7 stC2 ∧
    (manual_flush cfg0 sinkBad 7 stC2).2 =
      { status := "flushed", timestamp := 7 } ∧
    save_to_postgres sinkBad (makeRecord cfg0 7 "s" [evCrit]) = false :=
  ⟨rfl, rfl, rfl⟩

/-- Counterexample to C7 as stated: in a two-source flush cycle, the
buffer observed right after the first source ("a") finishes its
summarization still contains that source and its event. -/
theorem C7_counterexample :
    (flushBufferTrace stTr).head? =
      some [("a", [ev1]), ("b", [ev2])] ∧
    bufLookup [("a", [ev1]), ("b", [ev2])] "a" = some [ev1] :=
  ⟨rfl, rfl⟩

set_option maxRecDepth 4000 in
/-- Counterexample to C9 as stated: a buffer holding one event with the
out-of-set level string "warning" contains no warn, error or critical
event, yet its summary is the error-priority text, not an activity
summary. -/
theorem C9_counterexample :
    evWarning.level ∉ (["warn", "error", "critical"] : List String) ∧
    ((flush_aggregated_logs cfg0 sinkOk 1 stC9).2.map
        AggregatedLog.text) =
      ["[s] 1 errors, 0 info messages. Errors: boom"] ∧
    ((flush_aggregated_logs cfg0 sinkOk 1 stC9).2.map
        AggregatedLog.text) ≠
      ["[s] Activity summary: boom (1x)"] :=
  ⟨by decide, rfl, by decide⟩

/-- Claim C2 (amended): in the summarization step an event is placed in
error_logs exactly when its lowercased level string is "error" or
"warning" — so warn- and critical-level events land in info_logs —
and error_count and info_count are the sizes of those two partitions of
the source buffer. -/
theorem C2_partition_by_lowered_level (cfg : Config) (sink : Sink)
    (now : Nat) (st : EngineState)
    (hkeys : st.log_buffer.Pairwise (fun p q => p.1 ≠ q.1))
    (r : AggregatedLog)
    (hr : r ∈ (flush_aggregated_logs cfg sink now st).2) :
    bufLookup st.log_buffer r.metadata.source ≠ none ∧
    r.metadata.error_count =
      (((bufLookup st.log_buffer r.metadata.source).getD []).filter
        (fun e => decide (strToLower e.level = "error") ||
          decide (strToLower e.level = "warning"))).length ∧
    r.metadata.info_count =
      (((bufLookup st.log_buffer r.metadata.source).getD []).filter
        (fun e => !(decide (strToLower e.level = "error") ||
          decide (strToLower e.level = "warning")))).length := by
  by_cases hb : st.log_buffer.isEmpty
  · unfold flush_aggregated_logs at hr
    simp [hb] at hr
  · rw [flush_nonempty cfg sink now st
      (fun hnil => hb (by simp [hnil]))] at hr
    obtain ⟨s, logs, hmem, hne, hreq⟩ := flushLoop_mem hr
    subst hreq
    have hlook := bufLookup_of_mem hkeys hmem
    refine ⟨?_, ?_, ?_⟩
    · simp only [makeRecord]
      rw [hlook]
      simp
    · simp only [makeRecord, partitionLogs_eq]
      rw [hlook]
      rfl
    · simp only [makeRecord, partitionLogs_eq]
      rw [hlook]
      rfl

/-- Witness for the amended C2 at the one-critical-event state: the
record counts are the partition sizes under the lowercased-level
classifier. -/
theorem C2_amended_witness :
    bufLookup stC2.log_buffer
        (makeRecord cfg0 1 "s" [evCrit]).metadata.source ≠ none ∧
    (makeRecord cfg0 1 "s" [evCrit]).metadata.error_count =
      (((bufLookup stC2.log_buffer
            (makeRecord cfg0 1 "s" [evCrit]).metadata.source).getD
          []).filter
        (fun e => decide (strToLower e.level = "error") ||
          decide (strToLower e.level = "warning"))).length ∧
    (makeRecord cfg0 1 "s" [evCrit]).metadata.info_count =
      (((bufLookup stC2.log_buffer
            (makeRecord cfg0 1 "s" [evCrit]).metadata.source).getD
          []).filter
        (fun e => !(decide (strToLower e.level = "error") ||
          decide (strToLower e.level = "warning")))).length :=
  C2_partition_by_lowered_level cfg0 sinkOk 1 stC2 (by simp [stC2])
    (makeRecord cfg0 1 "s" [evCrit])
    (by
      rw [show (flush_aggregated_logs cfg0 sinkOk 1 stC2).2 =
            [makeRecord cfg0 1 "s" [evCrit]] from rfl]
      exact List.mem_singleton.mpr rfl)

/-- Claim C4 (amended): ingest validation rejects exactly the requests
missing the message or source field; accepted requests pass all fields
through unchecked — empty strings are kept, any level string is stored
as given (an absent level defaults to info), and nothing is checked
against the fixed level set. -/
theorem C4_parse_validation (raw : RawLogInput) :
    (isRejected (parseLogEntry raw) = true ↔
      (raw.message = none ∨ raw.source = none)) ∧
    (isRejected (parseLogEntry raw) = false →
      parseLogEntry raw =
        .ok { message := raw.message.getD "",
              source := raw.source.getD "",
              level := raw.level.getD "info",
              timestamp := raw.timestamp }) := by
  obtain ⟨om, os, ol, ot⟩ := raw
  cases om <;> cases os <;> simp [parseLogEntry, isRejected]

/-- Witness for the amended C4 at the concrete accepted-but-invalid
request rawBad. -/
theorem C4_amended_witness :
    (isRejected (parseLogEntry rawBad) = true ↔
      (rawBad.message = none ∨ rawBad.source = none)) ∧
    (isRejected (parseLogEntry rawBad) = false →
      parseLogEntry rawBad =
        .ok { message := rawBad.message.getD "",
              source := rawBad.source.getD "",
              level := rawBad.level.getD "info",
              timestamp := rawBad.timestamp }) :=
  C4_parse_validation rawBad

/-- Claim C5 (amended): flush always leaves the buffer map empty and
stats never changes the state; an ingest that triggers no flush
preserves the no-empty-entry invariant and leaves the ingested source
with at least one event; but an ingest whose early-flush condition fires
leaves exactly one entry behind — the triggering source key with an
empty event list, re-created by the defaultdict buffer-depth read. -/
theorem C5_buffer_key_invariant (cfg : Config) (sink : Sink) (now : Nat)
    (st : EngineState) (entry : LogEntry)
    (hwf : ∀ p ∈ st.log_buffer, p.2 ≠ ([] : List LogEvent)) :
    (earlyFlushCond cfg entry
        (bufAppend st.log_buffer entry.source (ingestEvent now entry)) =
          false →
      (∀ p ∈ (ingest_log cfg sink now st entry).1.log_buffer,
        p.2 ≠ ([] : List LogEvent)) ∧
      bufLookup (ingest_log cfg sink now st entry).1.log_buffer
          entry.source =
        some ((bufLookup st.log_buffer entry.source).getD [] ++
          [ingestEvent now entry])) ∧
    (earlyFlushCond cfg entry
        (bufAppend st.log_buffer entry.source (ingestEvent now entry)) =
          true →
      (ingest_log cfg sink now st entry).1.log_buffer =
        [(entry.source, [])]) ∧
    (flush_aggregated_logs cfg sink now st).1.log_buffer = [] ∧
    (get_stats cfg st).1 = st := by
  refine ⟨?_, ?_, flush_clears_buffer cfg sink now st, rfl⟩
  · intro hc
    rw [ingest_log_noflush_eq cfg sink now st entry hc]
    exact ⟨mem_bufAppend_nonempty hwf entry.source (ingestEvent now entry),
      bufLookup_bufAppend_self st.log_buffer entry.source
        (ingestEvent now entry)⟩
  · intro hc
    rw [ingest_log_flush_eq cfg sink now st entry hc]

/-- Witness for the amended C5 at an info ingest into an empty engine. -/
theorem C5_amended_witness :
    (earlyFlushCond cfg0 entInfo
        (bufAppend ([] : Buffer) entInfo.source (ingestEvent 3 entInfo)) =
          false →
      (∀ p ∈ (ingest_log cfg0 sinkOk 3
          { log_buffer := [], last_flush := 0 } entInfo).1.log_buffer,
        p.2 ≠ ([] : List LogEvent)) ∧
      bufLookup (ingest_log cfg0 sinkOk 3
            { log_buffer := [], last_flush := 0 } entInfo).1.log_buffer
          entInfo.source =
        some ((bufLookup ([] : Buffer) entInfo.source).getD [] ++
          [ingestEvent 3 entInfo])) ∧
    (earlyFlushCond cfg0 entInfo
        (bufAppend ([] : Buffer) entInfo.source (ingestEvent 3 entInfo)) =
          true →
      (ingest_log cfg0 sinkOk 3 { log_buffer := [], last_flush := 0 }
          entInfo).1.log_buffer = [(entInfo.source, [])]) ∧
    (flush_aggregated_logs cfg0 sinkOk 3
        { log_buffer := [], last_flush := 0 }).1.log_buffer = [] ∧
    (get_stats cfg0 { log_buffer := [], last_flush := 0 }).1 =
      ({ log_buffer := [], last_flush := 0 } : EngineState) :=
  C5_buffer_key_invariant cfg0 sinkOk 3
    { log_buffer := [], last_flush := 0 } entInfo (by simp)

/-- Claim C6 (amended): the manual flush response carries only the
constant status string and the flush timestamp; it lists neither the
produced records nor per-source sink failures — the entire manual flush
result is independent of the sink outcomes, so no sink failure can be
surfaced in it. -/
theorem C6_manual_flush_report (cfg : Config) (s1 s2 : Sink) (now : Nat)
    (st : EngineState) :
    manual_flush cfg s1 now st = manual_flush cfg s2 now st ∧
    (manual_flush cfg s1 now st).2.status = "flushed" ∧
    (manual_flush cfg s1 now st).2.timestamp = now := by
  refine ⟨?_, rfl, rfl⟩
  unfold manual_flush
  by_cases h : st.log_buffer.isEmpty <;>
    simp [flush_aggregated_logs, h]

/-- Claim C7 (amended): there is no per-source clearing inside the flush
cycle: every buffer observation taken right after a source finishes its
summarization still equals the whole cycle-start buffer (including
sources already summarized), and the single clearing step empties the
buffer only after the loop is done. -/
theorem C7_flush_clears_once (cfg : Config) (sink : Sink) (now : Nat)
    (st : EngineState) (b : Buffer) (hb : b ∈ flushBufferTrace st) :
    b = st.log_buffer ∧
    (flush_aggregated_logs cfg sink now st).1.log_buffer = [] := by
  refine ⟨?_, flush_clears_buffer cfg sink now st⟩
  unfold flushBufferTrace at hb
  by_cases h : st.log_buffer.isEmpty
  · simp [h] at hb
  · rw [if_neg (by simp [h])] at hb
    exact loopBufferTrace_mem hb

/-- Witness for the amended C7 at the two-source state stTr. -/
theorem C7_amended_witness :
    ([("a", [ev1]), ("b", [ev2])] : Buffer) = stTr.log_buffer ∧
    (flush_aggregated_logs cfg0 sinkOk 9 stTr).1.log_buffer = [] :=
  C7_flush_clears_once cfg0 sinkOk 9 stTr
    [("a", [ev1]), ("b", [ev2])] (by decide)

/-! Stability and sortedness of the descending count sort, and
correctness of the message-frequency pass. -/

theorem orderedInsert_countGe_filter (p : String × Nat) (c : Nat) :
    ∀ l : List (String × Nat),
      (List.orderedInsert countGe p l).filter (fun q => decide (q.2 = c)) =
        if p.2 = c then p :: l.filter (fun q => decide (q.2 = c))
        else l.filter (fun q => decide (q.2 = c)) := by
  intro l
  induction l with
  | nil =>
    by_cases h : p.2 = c <;> simp [List.orderedInsert, h]
  | cons q rest ih =>
    unfold List.orderedInsert
    by_cases hle : countGe p q
    · rw [if_pos hle]
      by_cases h : p.2 = c <;> simp [List.filter_cons, h]
    · rw [if_neg hle]
      have hgt : p.2 < q.2 := by
        unfold countGe at hle
        omega
      by_cases h : p.2 = c
      · have hq : ¬(q.2 = c) := by omega
        simp [List.filter_cons, hq, ih, h]
      · by_cases hq : q.2 = c <;> simp [List.filter_cons, hq, ih, h]

theorem sortDesc_filter (c : Nat) :
    ∀ l : List (String × Nat),
      (sortDesc l).filter (fun q => decide (q.2 = c)) =
        l.filter (fun q => decide (q.2 = c)) := by
  intro l
  induction l with
  | nil => rfl
  | cons p rest ih =>
    show (List.orderedInsert countGe p (sortDesc rest)).filter _ = _
    rw [orderedInsert_countGe_filter]
    by_cases h : p.2 = c <;> simp [List.filter_cons, h, ih]

theorem sortDesc_sorted (l : List (String × Nat)) :
    (sortDesc l).Pairwise (fun p q => q.2 ≤ p.2) :=
  List.sorted_insertionSort countGe l

theorem sortDesc_perm (l : List (String × Nat)) :
    List.Perm (sortDesc l) l :=
  List.perm_insertionSort countGe l

theorem messageCounts_eq_foldMap (logs : List LogEvent) :
    messageCounts logs = (logs.map LogEvent.message).foldl bumpCount [] := by
  unfold messageCounts
  rw [List.foldl_map]

theorem bumpCount_keys (counts : List (String × Nat)) (m : String) :
    (bumpCount counts m).map Prod.fst =
      if m ∈ counts.map Prod.fst then counts.map Prod.fst
      else counts.map Prod.fst ++ [m] := by
  induction counts with
  | nil => simp [bumpCount]
  | cons p rest ih =>
    by_cases h : p.1 = m
    · simp [bumpCount, h]
    · have h2 : m ≠ p.1 := fun hh => h hh.symm
      simp only [bumpCount, if_neg h, List.map_cons]
      rw [ih]
      by_cases hm : m ∈ rest.map Prod.fst
      · simp [hm, h2]
      · simp [hm, h2]

theorem foldBump_keys (msgs : List String) :
    ∀ acc : List (String × Nat),
      ((msgs.foldl bumpCount acc).map Prod.fst) =
        dedupSources (acc.map Prod.fst) msgs := by
  induction msgs with
  | nil => intro acc; rfl
  | cons m rest ih =>
    intro acc
    rw [List.foldl_cons, ih, bumpCount_keys]
    simp only [dedupSources]
    by_cases h : m ∈ acc.map Prod.fst
    · rw [if_pos h, if_pos h]
    · rw [if_neg h, if_neg h]

theorem messageCounts_keys (logs : List LogEvent) :
    (messageCounts logs).map Prod.fst =
      dedupSources [] (logs.map LogEvent.message) := by
  rw [messageCounts_eq_foldMap, foldBump_keys]
  rfl

theorem countLookup_bumpCount_self (counts : List (String × Nat))
    (m : String) :
    countLookup (bumpCount counts m) m =
      some ((countLookup counts m).getD 0 + 1) := by
  induction counts with
  | nil => simp [bumpCount, countLookup]
  | cons p rest ih =>
    by_cases h : p.1 = m
    · simp [bumpCount, countLookup, h]
    · simp [bumpCount, countLookup, h, ih]

theorem countLookup_bumpCount_ne (counts : List (String × Nat))
    {m m2 : String} (h : m2 ≠ m) :
    countLookup (bumpCount counts m2) m = countLookup counts m := by
  induction counts with
  | nil => simp [bumpCount, countLookup, h]
  | cons p rest ih =>
    have h2 : m ≠ m2 := fun hh => h hh.symm
    by_cases hp : p.1 = m2
    · have hpm : p.1 ≠ m := fun hh => h (hp ▸ hh)
      simp [bumpCount, countLookup, hp, hpm, h, h2]
    · by_cases hm : p.1 = m
      · simp [bumpCount, countLookup, hp, hm, h, h2]
      · simp [bumpCount, countLookup, hp, hm, h, h2, ih]

theorem foldBump_countLookup (msgs : List String) :
    ∀ (acc : List (String × Nat)) (m : String),
      countLookup (msgs.foldl bumpCount acc) m =
        if m ∈ msgs
        then some ((countLookup acc m).getD 0 + msgs.count m)
        else countLookup acc m := by
  induction msgs with
  | nil => intro acc m; simp
  | cons x rest ih =>
    intro acc m
    rw [List.foldl_cons, ih]
    by_cases hx : x = m
    · subst hx
      by_cases hm : x ∈ rest
      · simp only [hm, if_pos, List.mem_cons, true_or, or_true,
          countLookup_bumpCount_self, List.count_cons, Option.getD_some]
        simp [List.count_cons]
        omega
      · have hc : rest.count x = 0 := by
          simpa using List.count_eq_zero.mpr hm
        simp [hm, countLookup_bumpCount_self, List.count_cons, hc]
    · have hx' : x ≠ m := hx
      have hmx : m ≠ x := fun hh => hx hh.symm
      by_cases hm : m ∈ rest
      · simp [hm, hx, hmx, countLookup_bumpCount_ne _ hx',
          List.count_cons]
      · simp [hm, hx, hmx, countLookup_bumpCount_ne _ hx']

theorem messageCounts_countLookup (logs : List LogEvent) (m : String) :
    countLookup (messageCounts logs) m =
      (if m ∈ logs.map LogEvent.message
       then some ((logs.map LogEvent.message).count m) else none) := by
  rw [messageCounts_eq_foldMap, foldBump_countLookup]
  by_cases h : m ∈ logs.map LogEvent.message <;> simp [h, countLookup]

theorem makeRecord_text_activity (cfg : Config) (now : Nat) (s : String)
    (logs : List LogEvent)
    (hno : ∀ e ∈ logs,
      ¬(strToLower e.level = "error" ∨ strToLower e.level = "warning")) :
    (makeRecord cfg now s logs).text =
      "[" ++ s ++ "] Activity summary: " ++
        String.intercalate "; "
          (((sortDesc (messageCounts logs)).take 3).map
            (fun p => p.1 ++ " (" ++ toString p.2 ++ "x)")) := by
  have herr : logs.filter isErrorLevel = [] := by
    rw [List.filter_eq_nil_iff]
    intro e he
    simp only [isErrorLevel, Bool.or_eq_true, decide_eq_true_eq]
    exact hno e he
  simp only [makeRecord, partitionLogs_eq, aggText, herr, List.isEmpty_nil,
    if_true]
  rfl

/-- Claim C9 (amended): when a buffered source has no event whose
lowercased level string is "error" or "warning", the flush cycle emits
for it a record whose summary_text is the activity summary over the top
3 entries of the message-frequency table sorted by descending count —
a stable descending order: sorted, a permutation of the table, and
keeping, within every fixed count c, exactly the table order — where
the table itself lists each distinct raw message (exact, case-sensitive)
in first-occurrence order with its number of occurrences, each top entry
rendered as the message followed by its count and "x" in parentheses,
joined by "; ". -/
theorem C9_activity_summary (cfg : Config) (sink : Sink) (now : Nat)
    (st : EngineState) (s : String) (logs : List LogEvent) (c : Nat)
    (m : String) (hmem : (s, logs) ∈ st.log_buffer) (hne : logs ≠ [])
    (hno : ∀ e ∈ logs,
      ¬(strToLower e.level = "error" ∨ strToLower e.level = "warning")) :
    makeRecord cfg now s logs ∈
      (flush_aggregated_logs cfg sink now st).2 ∧
    (makeRecord cfg now s logs).text =
      "[" ++ s ++ "] Activity summary: " ++
        String.intercalate "; "
          (((sortDesc (messageCounts logs)).take 3).map
            (fun p => p.1 ++ " (" ++ toString p.2 ++ "x)")) ∧
    (sortDesc (messageCounts logs)).Pairwise (fun p q => q.2 ≤ p.2) ∧
    (sortDesc (messageCounts logs)).filter (fun q => decide (q.2 = c)) =
      (messageCounts logs).filter (fun q => decide (q.2 = c)) ∧
    List.Perm (sortDesc (messageCounts logs)) (messageCounts logs) ∧
    (messageCounts logs).map Prod.fst =
      dedupSources [] (logs.map LogEvent.message) ∧
    countLookup (messageCounts logs) m =
      (if m ∈ logs.map LogEvent.message
       then some ((logs.map LogEvent.message).count m) else none) := by
  refine ⟨?_, makeRecord_text_activity cfg now s logs hno,
    sortDesc_sorted (messageCounts logs), sortDesc_filter c _,
    sortDesc_perm _, messageCounts_keys logs,
    messageCounts_countLookup logs m⟩
  have hb : st.log_buffer ≠ [] := fun hnil => by simp [hnil] at hmem
  rw [flush_nonempty cfg sink now st hb]
  exact flushLoop_mem_of hmem hne

set_option maxRecDepth 8000 in
/-- Witness for the amended C9 at the five-info-event state stAct:
message "a" occurs 3 times and "b" twice; the summary lists them in
descending frequency. -/
theorem C9_amended_witness :
    makeRecord cfg0 4 "s" [ev1, ev2, ev2, ev1, ev1] ∈
      (flush_aggregated_logs cfg0 sinkOk 4 stAct).2 ∧
    (makeRecord cfg0 4 "s" [ev1, ev2, ev2, ev1, ev1]).text =
      "[" ++ "s" ++ "] Activity summary: " ++
        String.intercalate "; "
          (((sortDesc (messageCounts [ev1, ev2, ev2, ev1, ev1])).take
              3).map
            (fun p => p.1 ++ " (" ++ toString p.2 ++ "x)")) ∧
    (sortDesc (messageCounts [ev1, ev2, ev2, ev1, ev1])).Pairwise
      (fun p q => q.2 ≤ p.2) ∧
    (sortDesc (messageCounts [ev1, ev2, ev2, ev1, ev1])).filter
        (fun q => decide (q.2 = 2)) =
      (messageCounts [ev1, ev2, ev2, ev1, ev1]).filter
        (fun q => decide (q.2 = 2)) ∧
    List.Perm (sortDesc (messageCounts [ev1, ev2, ev2, ev1, ev1]))
      (messageCounts [ev1, ev2, ev2, ev1, ev1]) ∧
    (messageCounts [ev1, ev2, ev2, ev1, ev1]).map Prod.fst =
      dedupSources []
        ([ev1, ev2, ev2, ev1, ev1].map LogEvent.message) ∧
    countLookup (messageCounts [ev1, ev2, ev2, ev1, ev1]) "a" =
      (if "a" ∈ [ev1, ev2, ev2, ev1, ev1].map LogEvent.message
       then some (([ev1, ev2, ev2, ev1, ev1].map
           LogEvent.message).count "a")
       else none) :=
  C9_activity_summary cfg0 sinkOk 4 stAct "s" [ev1, ev2, ev2, ev1, ev1]
    2 "a" (by decide) (by decide) (by decide)

end LogAggregator
